import Mathlib

/-!
Verification of the Refurboard tracking/calibration pipeline
(`src/refurboard_py`), checked against its natural-language specification.

Modelling conventions.
* Python floats are embedded as exact rationals (`ℚ`).  All branch
  conditions settled below compare quantities that are far from the
  floating-point rounding error of the corresponding float computation,
  so the rational embedding decides every branch the way the float code
  does.  The single place where IEEE-754 special values (inf/NaN) are
  semantically relevant — the unguarded homogeneous division in
  `RefurboardApp._project` — is embedded with an explicit float-value
  type `FVal` carrying `inf`, `ninf` and `nan` constructors.
* Euclidean-distance comparisons `‖a − b‖ < r` (with `r ≥ 0` in every
  use in the source) are embedded as `distSq a b < r²`, which is
  equivalent and keeps every definition inside `ℚ`.
* `np.pi` is the float64 constant 884279719003555 / 2^48, embedded
  exactly as that rational (`npPi`).
* The One-Euro filter's speed estimate `np.linalg.norm(self._dx)`
  requires a square root, which ℚ lacks; the filter is therefore
  parameterised by the square-root function `sqrtQ : ℚ → ℚ` used on the
  squared speed.  Every property proved below holds for every `sqrtQ`
  (the claims concern the reacquisition gate and the gating control
  flow, which never consult the speed).
-/

namespace Refurboard

/-- Blob record from `detection.IrBlob`: centre in camera pixels, contour
area, mean intensity and a derived confidence score. -/
structure Blob where
  center : ℚ × ℚ
  area : ℚ
  intensity : ℚ
  confidence : ℚ
deriving DecidableEq, Repr

/-- Squared Euclidean distance between two points, used to embed every
`dx*dx + dy*dy`-style comparison of the source. -/
def distSq (a b : ℚ × ℚ) : ℚ :=
  (a.1 - b.1) * (a.1 - b.1) + (a.2 - b.2) * (a.2 - b.2)

/-- Weighted blob score `(intensity * 0.7) + (area * 0.3)` used by
`IrBlobDetector.find_blobs` and `BlobTracker.update` for ranking. -/
def weightedScore (b : Blob) : ℚ :=
  b.intensity * 0.7 + b.area * 0.3

/-- Python `int()` conversion: truncation toward zero. -/
def pyInt (q : ℚ) : ℤ :=
  if q < 0 then -(⌊-q⌋) else ⌊q⌋

/-- Exact value of the float64 constant `np.pi`. -/
def npPi : ℚ := 884279719003555 / 281474976710656

/-! ### Adaptive click threshold (`detection.AdaptiveThreshold`) -/

/-- State of `detection.AdaptiveThreshold`: configuration plus the
exponentially decaying baseline and the hysteresis flag. -/
structure AdaptiveThreshold where
  sensitivity : ℚ
  hysteresis : ℚ
  baseline : ℚ
  state : Bool
deriving DecidableEq, Repr

/-- Freshly constructed threshold (`__init__` / after `reset()`):
`baseline = 0.0`, `state = False`. -/
def AdaptiveThreshold.fresh (sensitivity hysteresis : ℚ) : AdaptiveThreshold :=
  { sensitivity := sensitivity, hysteresis := hysteresis, baseline := 0, state := false }

/-- The method `AdaptiveThreshold.evaluate(signal)`: seed or decay the
baseline, derive `high`/`low`, and apply the hysteresis transition rule.
Returns the updated object and the boolean the method returns. -/
def AdaptiveThreshold.evaluate (t : AdaptiveThreshold) (signal : ℚ) :
    AdaptiveThreshold × Bool :=
  let baseline := if t.baseline = 0 then signal else 0.98 * t.baseline + 0.02 * signal
  let high := baseline + baseline * t.sensitivity
  let low := high * (1 - t.hysteresis)
  let st := if t.state then decide (low ≤ signal) else decide (high ≤ signal)
  ({ t with baseline := baseline, state := st }, st)

/-! ### Theorems for claims C6 and C10 -/

/-- First call of the C6 scenario: `evaluate(10)` on a fresh threshold
with `sensitivity = 0.5`, `hysteresis = 0.25`. -/
def hystStep1 : AdaptiveThreshold × Bool :=
  (AdaptiveThreshold.fresh 0.5 0.25).evaluate 10

/-- Second call of the C6 scenario: `evaluate(20)`. -/
def hystStep2 : AdaptiveThreshold × Bool := hystStep1.1.evaluate 20

/-- Third call of the C6 scenario: `evaluate(15)`. -/
def hystStep3 : AdaptiveThreshold × Bool := hystStep2.1.evaluate 15

/-- Fourth call of the C6 scenario: `evaluate(5)`. -/
def hystStep4 : AdaptiveThreshold × Bool := hystStep3.1.evaluate 5

/-- C6: with `sensitivity = 0.5` and `hysteresis = 0.25`, from the reset
state the call sequence `evaluate(10), evaluate(20), evaluate(15),
evaluate(5)` returns `false, true, true, false`; the first call seeds the
baseline to 10, each later call updates it to
`0.98*baseline + 0.02*signal`, and the transitions use
`high = baseline*(1+sensitivity)` and `low = high*(1-hysteresis)`. -/
theorem adaptiveThreshold_hysteresis_sequence :
    hystStep1.2 = false ∧ hystStep2.2 = true ∧ hystStep3.2 = true ∧
    hystStep4.2 = false ∧
    hystStep1.1.baseline = 10 ∧
    hystStep2.1.baseline = 0.98 * hystStep1.1.baseline + 0.02 * 20 ∧
    hystStep3.1.baseline = 0.98 * hystStep2.1.baseline + 0.02 * 15 ∧
    hystStep4.1.baseline = 0.98 * hystStep3.1.baseline + 0.02 * 5 ∧
    -- the inactive→active transition at 20 used high = baseline*(1+0.5):
    (hystStep2.1.baseline + hystStep2.1.baseline * 0.5 ≤ 20) ∧
    -- the active→active hold at 15 used low = high*(1-0.25):
    ((hystStep3.1.baseline + hystStep3.1.baseline * 0.5) * (1 - 0.25) ≤ 15) ∧
    -- the release at 5 happened because 5 fell below low:
    (5 < (hystStep4.1.baseline + hystStep4.1.baseline * 0.5) * (1 - 0.25)) := by
  norm_num [hystStep1, hystStep2, hystStep3, hystStep4,
    AdaptiveThreshold.evaluate, AdaptiveThreshold.fresh]

/-- C10: immediately after `reset()` (equivalently on a fresh
`AdaptiveThreshold`) with `sensitivity > 0`, `evaluate(s)` returns
`false` for every strictly positive signal `s` (the baseline is seeded
to `s` and `high = s*(1+sensitivity) > s`), while `evaluate(0)` returns
`true`: a zero first signal leaves the baseline at 0, so `high = low = 0`
and the inactive→active test `signal ≥ high` is satisfied. -/
theorem adaptiveThreshold_zero_signal_spurious_click
    (sens hyst s : ℚ) (hsens : 0 < sens) (hs : 0 < s) :
    ((AdaptiveThreshold.fresh sens hyst).evaluate s).2 = false ∧
    ((AdaptiveThreshold.fresh sens hyst).evaluate s).1.baseline = s ∧
    ((AdaptiveThreshold.fresh sens hyst).evaluate 0).2 = true ∧
    ((AdaptiveThreshold.fresh sens hyst).evaluate 0).1.baseline = 0 := by
  have hne : s ≠ 0 := ne_of_gt hs
  have hlt : ¬ (s + s * sens ≤ s) := by nlinarith
  refine ⟨?_, ?_, ?_, ?_⟩ <;>
    simp [AdaptiveThreshold.fresh, AdaptiveThreshold.evaluate, hne, hlt]

/-- Witness for C10 at `sensitivity = 1/2`, `hysteresis = 1/4`, `s = 10`. -/
theorem adaptiveThreshold_zero_signal_spurious_click_witness :
    ((AdaptiveThreshold.fresh (1/2) (1/4)).evaluate 10).2 = false ∧
    ((AdaptiveThreshold.fresh (1/2) (1/4)).evaluate 10).1.baseline = 10 ∧
    ((AdaptiveThreshold.fresh (1/2) (1/4)).evaluate 0).2 = true ∧
    ((AdaptiveThreshold.fresh (1/2) (1/4)).evaluate 0).1.baseline = 0 :=
  adaptiveThreshold_zero_signal_spurious_click (1/2) (1/4) 10
    (by norm_num) (by norm_num)

/-! ### One-Euro position filter (`detection.OneEuroFilter`) -/

/-- State of `detection.OneEuroFilter`: constructor parameters plus the
mutable fields `_x`, `_dx`, `_last_time`, `_candidate`,
`_candidate_frames`. -/
structure OneEuroFilter where
  minCutoff : ℚ
  beta : ℚ
  dCutoff : ℚ
  reacquireFrames : ℤ
  reacquireRadius : ℚ
  x : Option (ℚ × ℚ)
  dx : Option (ℚ × ℚ)
  lastTime : Option ℚ
  candidate : Option (ℚ × ℚ)
  candidateFrames : ℤ
deriving DecidableEq, Repr

/-- Freshly constructed filter (all mutable state cleared, as after
`reset()`). -/
def OneEuroFilter.fresh (minCutoff beta dCutoff : ℚ) (reacquireFrames : ℤ)
    (reacquireRadius : ℚ) : OneEuroFilter :=
  { minCutoff := minCutoff, beta := beta, dCutoff := dCutoff,
    reacquireFrames := reacquireFrames, reacquireRadius := reacquireRadius,
    x := none, dx := none, lastTime := none, candidate := none,
    candidateFrames := 0 }

/-- The method `OneEuroFilter.reset()`. -/
def OneEuroFilter.reset (f : OneEuroFilter) : OneEuroFilter :=
  { f with x := none, dx := none, lastTime := none, candidate := none,
           candidateFrames := 0 }

/-- The helper `OneEuroFilter._smoothing_factor(cutoff, dt)`:
`tau = 1/(2π·cutoff)`, `α = 1/(1 + tau/dt)` with `π = np.pi`. -/
def smoothingFactor (cutoff dt : ℚ) : ℚ :=
  let tau := 1 / (2 * npPi * cutoff)
  1 / (1 + tau / dt)

/-- The method `OneEuroFilter.update(value, timestamp)`.  The timestamp
argument is `now`; the source's `time.perf_counter()` default is the
caller's ambient time and is likewise passed in here.  `sqrtQ` is the
square root used for the speed estimate `np.linalg.norm(self._dx)`
(see the header note); `‖current − candidate‖ < radius` is embedded as
`distSq < radius²`. -/
def OneEuroFilter.update (sqrtQ : ℚ → ℚ) (f : OneEuroFilter)
    (value : ℚ × ℚ) (now : ℚ) : OneEuroFilter × Option (ℚ × ℚ) :=
  match f.x with
  | none =>
    -- Reacquisition mode
    if f.reacquireFrames ≤ 0 then
      -- Disabled - accept immediately
      ({ f with x := some value, dx := some (0, 0), lastTime := some now },
       some value)
    else
      match f.candidate with
      | none =>
        ({ f with candidate := some value, candidateFrames := 1,
                  lastTime := some now }, none)
      | some c =>
        if distSq value c < f.reacquireRadius * f.reacquireRadius then
          let frames := f.candidateFrames + 1
          let cand := (0.7 * c.1 + 0.3 * value.1, 0.7 * c.2 + 0.3 * value.2)
          if f.reacquireFrames ≤ frames then
            ({ f with x := some cand, dx := some (0, 0), candidate := none,
                      candidateFrames := 0, lastTime := some now }, some cand)
          else
            ({ f with candidate := some cand, candidateFrames := frames }, none)
        else
          ({ f with candidate := some value, candidateFrames := 1 }, none)
  | some x0 =>
    -- Normal filtering.  Python's `now - self._last_time if self._last_time
    -- else 1.0/60.0` treats both `None` and `0.0` as falsy.
    let dtRaw := match f.lastTime with
      | some t => if t = 0 then 1 / 60 else now - t
      | none => (1 : ℚ) / 60
    let dt := max dtRaw (1 / 1000000)
    let dxRaw := ((value.1 - x0.1) / dt, (value.2 - x0.2) / dt)
    let alphaD := smoothingFactor f.dCutoff dt
    -- `_dx` is always `some` whenever `_x` is `some`; `getD` supplies the
    -- unreachable default.
    let dx0 := f.dx.getD (0, 0)
    let dxNew := (alphaD * dxRaw.1 + (1 - alphaD) * dx0.1,
                  alphaD * dxRaw.2 + (1 - alphaD) * dx0.2)
    let speed := sqrtQ (dxNew.1 * dxNew.1 + dxNew.2 * dxNew.2)
    let cutoff := f.minCutoff + f.beta * speed
    let alpha := smoothingFactor cutoff dt
    let xNew := (alpha * value.1 + (1 - alpha) * x0.1,
                 alpha * value.2 + (1 - alpha) * x0.2)
    ({ f with x := some xNew, dx := some dxNew, lastTime := some now },
     some xNew)

/-! ### Theorem for claim C7 -/

/-- C7: for the position filter with `reacquire_frames = 2` and
reacquisition radius `0.1`, starting with no current position: the first
update returns no value and records the sample as candidate; an update
farther than the radius from the candidate returns no value and restarts
the candidate and its counter at the new sample; an update within the
radius of a candidate seen once returns a filtered value (the
consecutive-stable count reaches 2); and with `reacquire_frames = 0` the
very first sample is accepted immediately. -/
theorem oneEuro_reacquisition_gate (sqrtQ : ℚ → ℚ) (mc be dc : ℚ)
    (dxv : Option (ℚ × ℚ)) (lt : Option ℚ)
    (p pJump cJump pStay cStay : ℚ × ℚ) (now : ℚ) (k : ℤ) :
    -- (a) first sample: no value, sample recorded as candidate
    (OneEuroFilter.update sqrtQ
        { minCutoff := mc, beta := be, dCutoff := dc, reacquireFrames := 2,
          reacquireRadius := 0.1, x := none, dx := dxv, lastTime := lt,
          candidate := none, candidateFrames := 0 } p now =
      ({ minCutoff := mc, beta := be, dCutoff := dc, reacquireFrames := 2,
         reacquireRadius := 0.1, x := none, dx := dxv, lastTime := some now,
         candidate := some p, candidateFrames := 1 }, none)) ∧
    -- (b) jump farther than the radius: no value, candidate restarts
    (0.1 * 0.1 < distSq pJump cJump →
      OneEuroFilter.update sqrtQ
        { minCutoff := mc, beta := be, dCutoff := dc, reacquireFrames := 2,
          reacquireRadius := 0.1, x := none, dx := dxv, lastTime := lt,
          candidate := some cJump, candidateFrames := k } pJump now =
      ({ minCutoff := mc, beta := be, dCutoff := dc, reacquireFrames := 2,
         reacquireRadius := 0.1, x := none, dx := dxv, lastTime := lt,
         candidate := some pJump, candidateFrames := 1 }, none)) ∧
    -- (c) stable sample within the radius, counter reaching 2: value returned
    (distSq pStay cStay < 0.1 * 0.1 →
      OneEuroFilter.update sqrtQ
        { minCutoff := mc, beta := be, dCutoff := dc, reacquireFrames := 2,
          reacquireRadius := 0.1, x := none, dx := dxv, lastTime := lt,
          candidate := some cStay, candidateFrames := 1 } pStay now =
      ({ minCutoff := mc, beta := be, dCutoff := dc, reacquireFrames := 2,
         reacquireRadius := 0.1,
         x := some (0.7 * cStay.1 + 0.3 * pStay.1, 0.7 * cStay.2 + 0.3 * pStay.2),
         dx := some (0, 0), lastTime := some now,
         candidate := none, candidateFrames := 0 },
       some (0.7 * cStay.1 + 0.3 * pStay.1, 0.7 * cStay.2 + 0.3 * pStay.2))) ∧
    -- (d) reacquire_frames = 0: the very first sample is accepted
    (OneEuroFilter.update sqrtQ
        { minCutoff := mc, beta := be, dCutoff := dc, reacquireFrames := 0,
          reacquireRadius := 0.1, x := none, dx := dxv, lastTime := lt,
          candidate := none, candidateFrames := 0 } p now =
      ({ minCutoff := mc, beta := be, dCutoff := dc, reacquireFrames := 0,
         reacquireRadius := 0.1, x := some p, dx := some (0, 0),
         lastTime := some now, candidate := none, candidateFrames := 0 },
       some p)) := by
  refine ⟨?_, fun hjump => ?_, fun hstay => ?_, ?_⟩
  · norm_num [OneEuroFilter.update]
  · norm_num at hjump
    norm_num [OneEuroFilter.update]
    intro hcon
    exact absurd hcon (not_lt.mpr hjump.le)
  · norm_num at hstay
    norm_num [OneEuroFilter.update, hstay]
  · norm_num [OneEuroFilter.update]

/-- Witness for C7: the gate theorem applied at the concrete inputs of
the spec's reacquisition scenario (`(0.5,0.5)` then a jump to
`(0.9,0.9)`, then a stable repeat). -/
theorem oneEuro_reacquisition_gate_witness :
    (0.1 * 0.1 < distSq (0.9, 0.9) (0.5, 0.5)) ∧
    (OneEuroFilter.update (fun _ => 0)
        { minCutoff := 1, beta := 0.007, dCutoff := 1, reacquireFrames := 2,
          reacquireRadius := 0.1, x := none, dx := none, lastTime := some 0,
          candidate := some (0.5, 0.5), candidateFrames := 1 } (0.9, 0.9) 1 =
      ({ minCutoff := 1, beta := 0.007, dCutoff := 1, reacquireFrames := 2,
         reacquireRadius := 0.1, x := none, dx := none, lastTime := some 0,
         candidate := some (0.9, 0.9), candidateFrames := 1 }, none)) ∧
    (distSq (0.9, 0.9) (0.9, 0.9) < 0.1 * 0.1) ∧
    (OneEuroFilter.update (fun _ => 0)
        { minCutoff := 1, beta := 0.007, dCutoff := 1, reacquireFrames := 2,
          reacquireRadius := 0.1, x := none, dx := none, lastTime := some 0,
          candidate := some (0.9, 0.9), candidateFrames := 1 } (0.9, 0.9) 2 =
      ({ minCutoff := 1, beta := 0.007, dCutoff := 1, reacquireFrames := 2,
         reacquireRadius := 0.1,
         x := some (0.7 * (0.9 : ℚ) + 0.3 * 0.9, 0.7 * (0.9 : ℚ) + 0.3 * 0.9),
         dx := some (0, 0), lastTime := some 2,
         candidate := none, candidateFrames := 0 },
       some (0.7 * (0.9 : ℚ) + 0.3 * 0.9, 0.7 * (0.9 : ℚ) + 0.3 * 0.9))) :=
  ⟨by norm_num [distSq],
   (oneEuro_reacquisition_gate (fun _ => 0) 1 0.007 1 none (some 0)
      (0, 0) (0.9, 0.9) (0.5, 0.5) (0.9, 0.9) (0.9, 0.9) 1 1).2.1
      (by norm_num [distSq]),
   by norm_num [distSq],
   (oneEuro_reacquisition_gate (fun _ => 0) 1 0.007 1 none (some 0)
      (0, 0) (0.9, 0.9) (0.5, 0.5) (0.9, 0.9) (0.9, 0.9) 2 1).2.2.1
      (by norm_num [distSq])⟩

/-! ### Pointer sink (`pointer.PointerDriver`) -/

/-- State of `pointer.PointerDriver` (platform backend abstracted: the
model records the move/press/release commands the driver issues instead
of performing them). -/
structure PointerDriver where
  clickHoldMs : ℚ
  minMovePx : ℤ
  clickActive : Bool
  clickStarted : ℚ
  lastTarget : Option (ℤ × ℤ)
  deadzoneSkips : ℕ
deriving DecidableEq, Repr

/-- Freshly constructed driver. -/
def PointerDriver.fresh (clickHoldMs : ℚ) (minMovePx : ℤ) : PointerDriver :=
  { clickHoldMs := clickHoldMs, minMovePx := minMovePx, clickActive := false,
    clickStarted := 0, lastTarget := none, deadzoneSkips := 0 }

/-- The method `PointerDriver.reset_position()`: per its own docstring it
keeps `_last_target` ("so mouse up events go to the last known position")
and only clears the deadzone counter. -/
def PointerDriver.resetPosition (p : PointerDriver) : PointerDriver :=
  { p with deadzoneSkips := 0 }

/-- The method `PointerDriver.move(normalized, calibration)`: converts the
normalized position to integer screen pixels, applies the radial deadzone
with the skip-counter escape hatch, and returns the updated driver plus
the move command issued to the backend (if any). -/
def PointerDriver.move (p : PointerDriver) (normalized : ℚ × ℚ)
    (screen : ℤ × ℤ) : PointerDriver × Option (ℤ × ℤ) :=
  let x := pyInt (normalized.1 * (screen.1 : ℚ))
  let y := pyInt (normalized.2 * (screen.2 : ℚ))
  match p.lastTarget with
  | none =>
    ({ p with lastTarget := some (x, y), deadzoneSkips := 0 }, some (x, y))
  | some (lx, ly) =>
    let dx := x - lx
    let dy := y - ly
    if p.minMovePx * p.minMovePx < dx * dx + dy * dy then
      ({ p with lastTarget := some (x, y), deadzoneSkips := 0 }, some (x, y))
    else if dx ≠ 0 ∨ dy ≠ 0 then
      if 2 ≤ p.deadzoneSkips + 1 then
        ({ p with lastTarget := some (x, y), deadzoneSkips := 0 }, some (x, y))
      else
        ({ p with deadzoneSkips := p.deadzoneSkips + 1 }, none)
    else
      (p, none)

/-- The method `PointerDriver.update_click(pressed)`: edge-triggered
press/release plus the hold-timeout auto release.  The emitted event is
`some true` for a backend press and `some false` for a release. -/
def PointerDriver.updateClick (p : PointerDriver) (pressed : Bool)
    (now : ℚ) : PointerDriver × Option Bool :=
  if pressed && !p.clickActive then
    ({ p with clickActive := true, clickStarted := now }, some true)
  else if !pressed && p.clickActive then
    ({ p with clickActive := false }, some false)
  else if p.clickActive && decide (p.clickHoldMs ≤ (now - p.clickStarted) * 1000) then
    ({ p with clickActive := false }, some false)
  else
    (p, none)

/-! ### Homography projection (`RefurboardApp._project`), rational form -/

/-- A 3×3 homography matrix over ℚ (the app stores it as a NumPy array;
`cv2.getPerspectiveTransform` always produces `m22 = 1`). -/
structure Mat3 where
  m00 : ℚ
  m01 : ℚ
  m02 : ℚ
  m10 : ℚ
  m11 : ℚ
  m12 : ℚ
  m20 : ℚ
  m21 : ℚ
  m22 : ℚ
deriving DecidableEq, Repr

/-- First coordinate of `homography @ [x, y, 1]`. -/
def homX (h : Mat3) (pt : ℚ × ℚ) : ℚ := h.m00 * pt.1 + h.m01 * pt.2 + h.m02

/-- Second coordinate of `homography @ [x, y, 1]`. -/
def homY (h : Mat3) (pt : ℚ × ℚ) : ℚ := h.m10 * pt.1 + h.m11 * pt.2 + h.m12

/-- Third (homogeneous) coordinate of `homography @ [x, y, 1]`. -/
def homW (h : Mat3) (pt : ℚ × ℚ) : ℚ := h.m20 * pt.1 + h.m21 * pt.2 + h.m22

/-- Determinant of a `Mat3` (used to exhibit that a counterexample
homography is nondegenerate). -/
def det3 (h : Mat3) : ℚ :=
  h.m00 * (h.m11 * h.m22 - h.m12 * h.m21)
    - h.m01 * (h.m10 * h.m22 - h.m12 * h.m20)
    + h.m02 * (h.m10 * h.m21 - h.m11 * h.m20)

/-- Rational embedding of `RefurboardApp._project` followed by
`_apply_field_correction` (`np.clip` on both axes): `None` when the
homography or the calibration is absent.  Division is total ℚ-division;
every tracking scenario settled below keeps the homogeneous third
coordinate nonzero, where this agrees with the float code.  The IEEE
inf/NaN behaviour of the unguarded division is modelled separately by
`projectF` below for the §4.8 claim (see `projectF_agrees_projectQ`). -/
def projectQ (homography : Option Mat3) (calib : Option (ℤ × ℤ))
    (pt : ℚ × ℚ) : Option (ℚ × ℚ) :=
  match homography, calib with
  | some h, some scr =>
    let x := (homX h pt / homW h pt) / (scr.1 : ℚ)
    let y := (homY h pt / homW h pt) / (scr.2 : ℚ)
    some (min (max x 0) 1, min (max y 0) 1)
  | _, _ => none

/-! ### Tracking-loop frame step (`RefurboardApp._tracking_loop` body) -/

/-- Per-frame environment of the tracking loop: the quad filter (its
convex-hull membership test abstracted as a camera-point predicate), the
minimum-intensity floor (`getattr(..., "min_intensity", 3.5)`), the
current homography and calibration screen size, and the
pointer-blocking inputs (`_calibrating`, `_pointer_resume_time`). -/
structure TrackEnv where
  quad : Option ((ℚ × ℚ) → Bool)
  minIntensity : ℚ
  homography : Option Mat3
  screenSize : Option (ℤ × ℤ)
  calibrating : Bool
  resumeTime : ℚ

/-- Mutable state the tracking loop carries across frames. -/
structure TrackState where
  smoother : OneEuroFilter
  pointer : PointerDriver
deriving DecidableEq, Repr

/-- Observable per-frame output of the loop body: the click value
forwarded to `pointer_driver.update_click`, the loop's `click_active`,
the normalized position recorded in telemetry, the selected blob's
intensity, and the move command issued to the backend. -/
structure FrameOut where
  forwardedClick : Bool
  clickActive : Bool
  normalized : Option (ℚ × ℚ)
  intensity : ℚ
  moveEmitted : Option (ℤ × ℤ)
deriving DecidableEq, Repr

/-- Steps 1–2 of the blob pipeline: quad filtering then the
minimum-intensity floor.  (The source's `if blobs and ...` guards only
short-circuit the empty list and do not change the value.) -/
def qualifyingBlobs (env : TrackEnv) (blobs : List Blob) : List Blob :=
  let b1 := match env.quad with
    | some contains => blobs.filter (fun b => contains b.center)
    | none => blobs
  if 0 < env.minIntensity then
    b1.filter (fun b => decide (env.minIntensity ≤ b.intensity))
  else b1

/-- Python's `max(moving_blobs, key=lambda b: b.intensity)`: the first
blob attaining the maximal intensity (later ties do not replace). -/
def selectBest (b : Blob) (bs : List Blob) : Blob :=
  bs.foldl (fun acc x => if acc.intensity < x.intensity then x else acc) b

/-- One iteration of `RefurboardApp._tracking_loop` after a frame has
been fetched and `find_blobs` has produced `blobs`.  The `elif blobs:`
arm of the source is unreachable (`moving_blobs` is the same list as the
rebound `blobs`), so zero qualifying blobs always takes the reset arm.
Note the loop never consults `self.click_threshold`
(`AdaptiveThreshold`): `click_active` is set from the position filter
returning a value. -/
def trackFrame (env : TrackEnv) (sqrtQ : ℚ → ℚ) (st : TrackState)
    (blobs : List Blob) (now : ℚ) : TrackState × FrameOut :=
  let blocked := env.calibrating || decide (now < env.resumeTime)
  match qualifyingBlobs env blobs with
  | [] =>
    -- no valid blobs at all: reset position filter and pointer position
    let pd := st.pointer.resetPosition
    let pd2 := (pd.updateClick false now).1
    (⟨st.smoother.reset, pd2⟩,
     { forwardedClick := false, clickActive := false, normalized := none,
       intensity := 0, moveEmitted := none })
  | b :: bs =>
    let best := selectBest b bs
    match projectQ env.homography env.screenSize best.center with
    | none =>
      -- projection unavailable (no homography/calibration): no move, no click
      let pd2 := (st.pointer.updateClick false now).1
      (⟨st.smoother, pd2⟩,
       { forwardedClick := false, clickActive := false, normalized := none,
         intensity := best.intensity, moveEmitted := none })
    | some pr =>
      let r := st.smoother.update sqrtQ pr now
      match r.2 with
      | some nrm =>
        -- stable tracking: click_active = True; move unless blocked
        let moved : PointerDriver × Option (ℤ × ℤ) :=
          match env.screenSize with
          | some scr => if blocked then (st.pointer, none) else st.pointer.move nrm scr
          | none => (st.pointer, none)
        let forwarded := !blocked
        let pd2 := (moved.1.updateClick forwarded now).1
        (⟨r.1, pd2⟩,
         { forwardedClick := forwarded, clickActive := true,
           normalized := some nrm, intensity := best.intensity,
           moveEmitted := moved.2 })
      | none =>
        -- reacquisition in progress: suppress both move and click
        let pd2 := (st.pointer.updateClick false now).1
        (⟨r.1, pd2⟩,
         { forwardedClick := false, clickActive := false, normalized := none,
           intensity := best.intensity, moveEmitted := none })

/-! ### Shared concrete fixtures for tracking-loop runs -/

/-- Tracking environment with the identity homography, a 1920×1080
calibrated screen, no quad filter, the default `min_intensity = 3.5`,
and pointer output unblocked. -/
def demoEnv : TrackEnv :=
  { quad := none, minIntensity := 3.5,
    homography := some ⟨1, 0, 0, 0, 1, 0, 0, 0, 1⟩,
    screenSize := some (1920, 1080), calibrating := false, resumeTime := 0 }

/-- Initial tracking state: One-Euro filter and pointer driver as
`RefurboardApp.__init__` builds them from the default config
(`filter_min_cutoff = 1.0`, `filter_beta = 0.007`, `reacquire_frames = 1`,
`reacquire_radius = 0.25`, `click_hold_ms = 120`, `min_move_px = 5`). -/
def demoState : TrackState :=
  ⟨OneEuroFilter.fresh 1 0.007 1 1 0.25, PointerDriver.fresh 120 5⟩

/-- A bright blob at camera pixel (192, 108), projecting to the
normalized point (0.1, 0.1) under `demoEnv`. -/
def demoBlob : Blob := ⟨(192, 108), 50, 10, 0⟩

/-- Qualifying blob with high intensity but low area. -/
def cexBlobA : Blob := ⟨(192, 108), 0, 10, 0⟩

/-- Qualifying blob with slightly lower intensity but much larger area,
hence the larger weighted score. -/
def cexBlobB : Blob := ⟨(192, 108), 100, 9, 0⟩

/-- Helper: `update_click` never touches the stored move target or the
deadzone counter. -/
theorem updateClick_preserves_target (p : PointerDriver) (pressed : Bool)
    (now : ℚ) :
    ((p.updateClick pressed now).1.lastTarget = p.lastTarget) ∧
    ((p.updateClick pressed now).1.deadzoneSkips = p.deadzoneSkips) := by
  unfold PointerDriver.updateClick
  split
  · exact ⟨rfl, rfl⟩
  · split
    · exact ⟨rfl, rfl⟩
    · split
      · exact ⟨rfl, rfl⟩
      · exact ⟨rfl, rfl⟩

/-! ### Theorems for claim C1 -/

/-- C1 amended: in every tracking-loop frame, the click state forwarded
to the pointer sink is `true` exactly when pointer output is not blocked
and the pipeline produced a filtered position this frame (a qualifying
blob was selected, projected, and the position filter returned a value).
The adaptive hysteresis machine of §4.4 is not consulted: `trackFrame`
never evaluates an `AdaptiveThreshold`. -/
theorem trackFrame_click_follows_filter (env : TrackEnv) (sqrtQ : ℚ → ℚ)
    (st : TrackState) (blobs : List Blob) (now : ℚ) :
    (trackFrame env sqrtQ st blobs now).2.forwardedClick =
      ((!(env.calibrating || decide (now < env.resumeTime))) &&
        ((trackFrame env sqrtQ st blobs now).2.normalized).isSome) := by
  simp only [trackFrame]
  rcases hq : qualifyingBlobs env blobs with _ | ⟨b, bs⟩
  · simp
  · rcases hp : projectQ env.homography env.screenSize (selectBest b bs).center
      with _ | pr
    · simp [hp]
    · rcases hs : (st.smoother.update sqrtQ pr now).2 with _ | nrm
      · simp [hp, hs]
      · simp [hp, hs]

/-- C1 counterexample: a two-frame run on a constant-intensity blob in
which the click forwarded to the pointer sink on the second frame is
`true`, while the §4.4 hysteresis machine evaluated on that blob's
intensity (seeded fresh with the config-default
`sensitivity = 0.65`, `hysteresis = 0.15`) returns `false` on both
frames — the forwarded click is not the machine's output, and the
intensity never exceeded the adaptive high threshold. -/
theorem trackFrame_click_ignores_hysteresis :
    (trackFrame demoEnv (fun _ => 0)
        (trackFrame demoEnv (fun _ => 0) demoState [demoBlob] 0).1
        [demoBlob] (1/60)).2.forwardedClick = true ∧
    (trackFrame demoEnv (fun _ => 0) demoState [demoBlob] 0).2.forwardedClick
      = false ∧
    ((AdaptiveThreshold.fresh 0.65 0.15).evaluate demoBlob.intensity).2
      = false ∧
    (((AdaptiveThreshold.fresh 0.65 0.15).evaluate demoBlob.intensity).1.evaluate
        demoBlob.intensity).2 = false := by
  norm_num [trackFrame, demoEnv, demoState, demoBlob, qualifyingBlobs,
    selectBest, projectQ, homX, homY, homW, OneEuroFilter.fresh,
    OneEuroFilter.update, OneEuroFilter.reset, PointerDriver.fresh,
    PointerDriver.resetPosition, PointerDriver.updateClick,
    PointerDriver.move, pyInt, distSq,
    AdaptiveThreshold.fresh, AdaptiveThreshold.evaluate]

/-! ### Theorems for claim C3 -/

/-- Helper: the fold implementing Python's `max(..., key=intensity)`
returns an element of the candidate list. -/
theorem selectBest_mem (b : Blob) (bs : List Blob) :
    selectBest b bs ∈ b :: bs := by
  induction bs generalizing b with
  | nil => simp [selectBest]
  | cons c cs ih =>
    have h : selectBest b (c :: cs) =
        selectBest (if b.intensity < c.intensity then c else b) cs := rfl
    rw [h]
    rcases List.mem_cons.mp (ih (if b.intensity < c.intensity then c else b))
      with h1 | h1
    · rw [h1]
      split
      · exact List.mem_cons_of_mem _ (List.mem_cons_self _ _)
      · exact List.mem_cons_self _ _
    · exact List.mem_cons_of_mem _ (List.mem_cons_of_mem _ h1)

/-- Helper: every candidate's intensity is at most the selected blob's. -/
theorem intensity_le_selectBest (b : Blob) (bs : List Blob) :
    ∀ x ∈ b :: bs, x.intensity ≤ (selectBest b bs).intensity := by
  induction bs generalizing b with
  | nil =>
    intro x hx
    rcases List.mem_cons.mp hx with h | h
    · rw [h]; exact le_refl _
    · simp at h
  | cons c cs ih =>
    intro x hx
    have h : selectBest b (c :: cs) =
        selectBest (if b.intensity < c.intensity then c else b) cs := rfl
    rw [h]
    have hb : b.intensity ≤
        (if b.intensity < c.intensity then c else b).intensity := by
      split
      · next hlt => exact le_of_lt hlt
      · exact le_refl _
    have hc : c.intensity ≤
        (if b.intensity < c.intensity then c else b).intensity := by
      split
      · exact le_refl _
      · next hnlt => exact le_of_not_lt hnlt
    have hhead := ih (if b.intensity < c.intensity then c else b)
      (if b.intensity < c.intensity then c else b) (List.mem_cons_self _ _)
    rcases List.mem_cons.mp hx with h1 | h1
    · rw [h1]; exact le_trans hb hhead
    · rcases List.mem_cons.mp h1 with h2 | h2
      · rw [h2]; exact le_trans hc hhead
      · exact ih _ x (List.mem_cons_of_mem _ h2)

/-- C3 amended: the single blob fed onward by the tracking loop is the
one maximizing raw intensity (`max(moving_blobs, key=lambda b:
b.intensity)`), not the weighted score `0.7*intensity + 0.3*area`: it is
a qualifying blob whose intensity dominates every other qualifying
blob's, and the frame's reported intensity is its. -/
theorem trackFrame_selects_max_intensity (env : TrackEnv) (sqrtQ : ℚ → ℚ)
    (st : TrackState) (blobs : List Blob) (now : ℚ) (b : Blob)
    (bs : List Blob) (hq : qualifyingBlobs env blobs = b :: bs) :
    (trackFrame env sqrtQ st blobs now).2.intensity =
      (selectBest b bs).intensity ∧
    selectBest b bs ∈ qualifyingBlobs env blobs ∧
    ∀ x ∈ qualifyingBlobs env blobs,
      x.intensity ≤ (selectBest b bs).intensity := by
  refine ⟨?_, ?_, ?_⟩
  · simp only [trackFrame, hq]
    rcases hp : projectQ env.homography env.screenSize (selectBest b bs).center
      with _ | pr
    · simp [hp]
    · rcases hs : (st.smoother.update sqrtQ pr now).2 with _ | nrm
      · simp [hp, hs]
      · simp [hp, hs]
  · rw [hq]; exact selectBest_mem b bs
  · rw [hq]; exact intensity_le_selectBest b bs

/-- Witness for C3's amended theorem on a concrete two-blob frame. -/
theorem trackFrame_selects_max_intensity_witness :
    qualifyingBlobs demoEnv [cexBlobA, cexBlobB] = cexBlobA :: [cexBlobB] ∧
    ((trackFrame demoEnv (fun _ => 0) demoState [cexBlobA, cexBlobB] 0).2.intensity
        = (selectBest cexBlobA [cexBlobB]).intensity ∧
      selectBest cexBlobA [cexBlobB] ∈ qualifyingBlobs demoEnv [cexBlobA, cexBlobB] ∧
      ∀ x ∈ qualifyingBlobs demoEnv [cexBlobA, cexBlobB],
        x.intensity ≤ (selectBest cexBlobA [cexBlobB]).intensity) :=
  ⟨by norm_num [qualifyingBlobs, demoEnv, cexBlobA, cexBlobB],
   trackFrame_selects_max_intensity demoEnv (fun _ => 0) demoState
     [cexBlobA, cexBlobB] 0 cexBlobA [cexBlobB]
     (by norm_num [qualifyingBlobs, demoEnv, cexBlobA, cexBlobB])⟩

/-- C3 counterexample: with two qualifying blobs, the loop selects the
intensity maximum `cexBlobA` even though `cexBlobB` has the strictly
greater weighted score `0.7*intensity + 0.3*area`, so the selected blob
does not maximize the weighted score over all qualifying blobs. -/
theorem trackFrame_selection_not_weighted :
    selectBest cexBlobA [cexBlobB] = cexBlobA ∧
    weightedScore cexBlobA < weightedScore cexBlobB ∧
    (trackFrame demoEnv (fun _ => 0) demoState [cexBlobA, cexBlobB] 0).2.intensity
      = cexBlobA.intensity ∧
    cexBlobA.intensity ≠ cexBlobB.intensity := by
  refine ⟨by norm_num [selectBest, cexBlobA, cexBlobB], ?_, ?_, ?_⟩
  · norm_num [weightedScore, cexBlobA, cexBlobB]
  · norm_num [trackFrame, demoEnv, demoState, cexBlobA, cexBlobB,
      qualifyingBlobs, selectBest, projectQ, homX, homY, homW,
      OneEuroFilter.fresh, OneEuroFilter.update, PointerDriver.fresh,
      PointerDriver.updateClick, distSq]
  · norm_num [cexBlobA, cexBlobB]

/-! ### Theorems for claim C4 -/

/-- C4 amended: in a frame with zero qualifying blobs the position
filter's state is fully reset and the pointer sink's deadzone counter is
cleared, but the sink's last-known target is retained (per
`reset_position`'s docstring, so mouse-up events go to the last known
position) — the next move is not handled as a first move. -/
theorem trackFrame_no_blobs_resets (env : TrackEnv) (sqrtQ : ℚ → ℚ)
    (st : TrackState) (blobs : List Blob) (now : ℚ)
    (hq : qualifyingBlobs env blobs = []) :
    (trackFrame env sqrtQ st blobs now).1.smoother = st.smoother.reset ∧
    (trackFrame env sqrtQ st blobs now).1.smoother.x = none ∧
    (trackFrame env sqrtQ st blobs now).1.smoother.candidate = none ∧
    (trackFrame env sqrtQ st blobs now).1.pointer.deadzoneSkips = 0 ∧
    (trackFrame env sqrtQ st blobs now).1.pointer.lastTarget =
      st.pointer.lastTarget := by
  have hcl := updateClick_preserves_target st.pointer.resetPosition false now
  refine ⟨?_, ?_, ?_, ?_, ?_⟩
  · simp [trackFrame, hq]
  · simp [trackFrame, hq, OneEuroFilter.reset]
  · simp [trackFrame, hq, OneEuroFilter.reset]
  · simp only [trackFrame, hq]
    exact hcl.2.trans rfl
  · simp only [trackFrame, hq]
    exact hcl.1.trans rfl

/-- Witness for C4's amended theorem on a concrete empty frame. -/
theorem trackFrame_no_blobs_resets_witness :
    qualifyingBlobs demoEnv [] = [] ∧
    ((trackFrame demoEnv (fun _ => 0) demoState [] 0).1.smoother
        = demoState.smoother.reset ∧
      (trackFrame demoEnv (fun _ => 0) demoState [] 0).1.smoother.x = none ∧
      (trackFrame demoEnv (fun _ => 0) demoState [] 0).1.smoother.candidate = none ∧
      (trackFrame demoEnv (fun _ => 0) demoState [] 0).1.pointer.deadzoneSkips = 0 ∧
      (trackFrame demoEnv (fun _ => 0) demoState [] 0).1.pointer.lastTarget =
        demoState.pointer.lastTarget) :=
  ⟨by norm_num [qualifyingBlobs, demoEnv],
   trackFrame_no_blobs_resets demoEnv (fun _ => 0) demoState [] 0
     (by norm_num [qualifyingBlobs, demoEnv])⟩

/-- C4 counterexample: after a marker is tracked for two frames (the
pointer sink stores target `(192, 108)`), a frame with zero qualifying
blobs resets the position filter but the sink's last-known target is
still `(192, 108)`, not cleared — contradicting the claim that the next
move is handled as a first move with no stored last target. -/
theorem reset_position_retains_last_target :
    (trackFrame demoEnv (fun _ => 0)
        (trackFrame demoEnv (fun _ => 0) demoState [demoBlob] 0).1
        [demoBlob] (1/60)).1.pointer.lastTarget = some (192, 108) ∧
    (trackFrame demoEnv (fun _ => 0)
        (trackFrame demoEnv (fun _ => 0)
          (trackFrame demoEnv (fun _ => 0) demoState [demoBlob] 0).1
          [demoBlob] (1/60)).1
        [] (2/60)).1.smoother.x = none ∧
    (trackFrame demoEnv (fun _ => 0)
        (trackFrame demoEnv (fun _ => 0)
          (trackFrame demoEnv (fun _ => 0) demoState [demoBlob] 0).1
          [demoBlob] (1/60)).1
        [] (2/60)).1.smoother.candidate = none ∧
    (trackFrame demoEnv (fun _ => 0)
        (trackFrame demoEnv (fun _ => 0)
          (trackFrame demoEnv (fun _ => 0) demoState [demoBlob] 0).1
          [demoBlob] (1/60)).1
        [] (2/60)).1.pointer.lastTarget = some (192, 108) := by
  norm_num [trackFrame, demoEnv, demoState, demoBlob, qualifyingBlobs,
    selectBest, projectQ, homX, homY, homW, OneEuroFilter.fresh,
    OneEuroFilter.update, OneEuroFilter.reset, PointerDriver.fresh,
    PointerDriver.resetPosition, PointerDriver.updateClick,
    PointerDriver.move, pyInt, distSq]

/-! ### Float-valued projection (`RefurboardApp._project`, §4.8 claim) -/

/-- Value of an IEEE-754 double restricted to the cases the projection
arithmetic can produce: an exact finite value, a signed infinity, or
NaN. -/
inductive FVal where
  | fin (q : ℚ)
  | inf
  | ninf
  | nan
deriving DecidableEq, Repr

/-- IEEE division of finite doubles: `q/0` is a signed infinity for
`q ≠ 0` and NaN for `0/0`. -/
def fdiv (a b : ℚ) : FVal :=
  if b ≠ 0 then .fin (a / b)
  else if 0 < a then .inf
  else if a < 0 then .ninf
  else .nan

/-- IEEE division of a (possibly non-finite) value by a finite
divisor. -/
def FVal.divF (v : FVal) (s : ℚ) : FVal :=
  match v with
  | .fin q => fdiv q s
  | .inf => if s < 0 then .ninf else .inf
  | .ninf => if s < 0 then .inf else .ninf
  | .nan => .nan

/-- The operation `np.clip(v, 0.0, 1.0)`: infinities clamp to the
bounds; NaN propagates (NumPy's clip returns NaN for NaN input). -/
def FVal.clip01 : FVal → FVal
  | .fin q => .fin (min (max q 0) 1)
  | .inf => .fin 1
  | .ninf => .fin 0
  | .nan => .nan

/-- Whether a float value is a finite number inside `[0, 1]`. -/
def FVal.inUnit : FVal → Bool
  | .fin q => decide (0 ≤ q ∧ q ≤ 1)
  | _ => false

/-- Float embedding of `RefurboardApp._project` followed by
`_apply_field_correction`: homogeneous transform (finite arithmetic),
unguarded division by the third coordinate, division by the screen
dimensions, `np.clip` of each axis to `[0, 1]`. -/
def projectF (h : Mat3) (pt : ℚ × ℚ) (scr : ℤ × ℤ) : FVal × FVal :=
  (((fdiv (homX h pt) (homW h pt)).divF (scr.1 : ℚ)).clip01,
   ((fdiv (homY h pt) (homW h pt)).divF (scr.2 : ℚ)).clip01)

/-- Faithfulness bridge: wherever the homogeneous third coordinate and
the screen dimensions are nonzero, the float projection produces the
finite values of the rational projection `projectQ` used by the
tracking-loop model. -/
theorem projectF_agrees_projectQ (h : Mat3) (pt : ℚ × ℚ) (scr : ℤ × ℤ)
    (hw : homW h pt ≠ 0) (h1 : (scr.1 : ℚ) ≠ 0) (h2 : (scr.2 : ℚ) ≠ 0) :
    projectF h pt scr =
      (FVal.fin (min (max ((homX h pt / homW h pt) / (scr.1 : ℚ)) 0) 1),
       FVal.fin (min (max ((homY h pt / homW h pt) / (scr.2 : ℚ)) 0) 1)) ∧
    projectQ (some h) (some scr) pt =
      some ((min (max ((homX h pt / homW h pt) / (scr.1 : ℚ)) 0) 1),
            (min (max ((homY h pt / homW h pt) / (scr.2 : ℚ)) 0) 1)) := by
  constructor
  · simp [projectF, fdiv, FVal.divF, FVal.clip01, hw, h1, h2]
  · simp [projectQ]

/-- Nondegenerate counterexample homography for C9: determinant 2,
bottom-right entry 1 (the normalization `cv2.getPerspectiveTransform`
produces). -/
def cexHom : Mat3 := ⟨1, 0, -1, 0, 1, 0, 1, -2, 1⟩

/-- C9 counterexample: at camera point `(1, 1)` the counterexample
homography sends the homogeneous third coordinate *and* the first
numerator to 0, so the unguarded division computes `0.0/0.0 = NaN`,
`np.clip` propagates the NaN, and the first normalized coordinate is not
in `[0, 1]` — the projection does not return an in-range pair for every
camera point with zero third coordinate. -/
theorem project_nan_out_of_range :
    homW cexHom (1, 1) = 0 ∧ homX cexHom (1, 1) = 0 ∧
    (projectF cexHom (1, 1) (1920, 1080)).1 = FVal.nan ∧
    (projectF cexHom (1, 1) (1920, 1080)).1.inUnit = false ∧
    (projectF cexHom (1, 1) (1920, 1080)).2 = FVal.fin 1 ∧
    det3 cexHom = 2 ∧ cexHom.m22 = 1 := by
  norm_num [projectF, cexHom, homX, homY, homW, fdiv, FVal.divF,
    FVal.clip01, FVal.inUnit, det3]

/-- C9 amended: for every homography, camera point and positive screen
size, both projected coordinates are finite values in `[0, 1]` whenever
the homogeneous third coordinate is nonzero — and also when it is zero
with both numerators nonzero (the signed infinities clamp to 0 or 1).
The only failures are the NaN cases `0.0/0.0`, exhibited by the
counterexample. -/
theorem project_clamps_to_unit (h : Mat3) (pt : ℚ × ℚ) (scr : ℤ × ℤ)
    (h1 : 0 < scr.1) (h2 : 0 < scr.2)
    (hw : homW h pt ≠ 0 ∨ (homX h pt ≠ 0 ∧ homY h pt ≠ 0)) :
    (projectF h pt scr).1.inUnit = true ∧
    (projectF h pt scr).2.inUnit = true := by
  have hs1 : (0 : ℚ) < (scr.1 : ℚ) := by exact_mod_cast h1
  have hs2 : (0 : ℚ) < (scr.2 : ℚ) := by exact_mod_cast h2
  have hclip : ∀ q : ℚ, (FVal.fin q).clip01.inUnit = true := by
    intro q
    simp only [FVal.clip01, FVal.inUnit, decide_eq_true_eq]
    exact ⟨le_min (le_max_right q 0) (by norm_num), min_le_right _ 1⟩
  have hfin : ∀ a b : ℚ, b ≠ 0 → fdiv a b = .fin (a / b) := by
    intro a b hb; simp [fdiv, hb]
  have hone : ∀ a : ℚ, a ≠ 0 → ∀ s : ℚ, 0 < s →
      ((fdiv a 0).divF s).clip01.inUnit = true := by
    intro a ha s hs
    rcases lt_or_gt_of_ne ha with h | h
    · simp [fdiv, FVal.divF, FVal.clip01, FVal.inUnit, h, not_lt.mpr h.le,
        not_lt.mpr hs.le]
    · simp [fdiv, FVal.divF, FVal.clip01, FVal.inUnit, h, not_lt.mpr hs.le]
  rcases hw with hw | ⟨hx, hy⟩
  · constructor
    · simp only [projectF, hfin _ _ hw, hfin _ _ (ne_of_gt hs1), FVal.divF]
      exact hclip _
    · simp only [projectF, hfin _ _ hw, hfin _ _ (ne_of_gt hs2), FVal.divF]
      exact hclip _
  · by_cases hw0 : homW h pt = 0
    · constructor
      · simpa only [projectF, hw0] using hone _ hx _ hs1
      · simpa only [projectF, hw0] using hone _ hy _ hs2
    · constructor
      · simp only [projectF, hfin _ _ hw0, hfin _ _ (ne_of_gt hs1), FVal.divF]
        exact hclip _
      · simp only [projectF, hfin _ _ hw0, hfin _ _ (ne_of_gt hs2), FVal.divF]
        exact hclip _

/-- Witness for C9's amended theorem: the identity homography at camera
point `(192, 108)` with a 1920×1080 screen. -/
theorem project_clamps_to_unit_witness :
    ((0 : ℤ) < 1920) ∧ ((0 : ℤ) < 1080) ∧
    (homW ⟨1, 0, 0, 0, 1, 0, 0, 0, 1⟩ (192, 108) ≠ 0) ∧
    ((projectF ⟨1, 0, 0, 0, 1, 0, 0, 0, 1⟩ (192, 108) (1920, 1080)).1.inUnit = true ∧
     (projectF ⟨1, 0, 0, 0, 1, 0, 0, 0, 1⟩ (192, 108) (1920, 1080)).2.inUnit = true) :=
  ⟨by norm_num, by norm_num, by norm_num [homW],
   project_clamps_to_unit ⟨1, 0, 0, 0, 1, 0, 0, 0, 1⟩ (192, 108) (1920, 1080)
     (by norm_num) (by norm_num) (Or.inl (by norm_num [homW]))⟩

/-! ### Calibration data model (`config.py` vs `calibration.py`, claim C2) -/

/-- Field names of the dataclass `config.CalibrationPoint`. -/
def calibrationPointFields : List String :=
  ["name", "camera_px", "screen_px", "normalized_screen"]

/-- Field names of the dataclass `config.CalibrationProfile`. -/
def calibrationProfileFields : List String :=
  ["screen_size", "screen_origin", "monitor_name", "monitor_index",
   "completed_at", "reprojection_error", "points"]

/-- Keyword arguments `calibration.run_calibration` passes when
constructing each `CalibrationPoint` for a locked target. -/
def runCalibrationPointKwargs : List String :=
  ["name", "camera_px", "screen_px", "normalized_screen", "intensity", "area"]

/-- Keyword arguments `calibration.run_calibration` passes when
constructing the final `CalibrationProfile`. -/
def runCalibrationProfileKwargs : List String :=
  ["screen_size", "screen_origin", "monitor_name", "monitor_index",
   "reprojection_error", "points", "learned_intensity_min",
   "learned_intensity_max", "learned_area_min", "learned_area_max",
   "camera_orientation"]

/-- A Python dataclass constructor accepts a keyword call iff every
keyword names a declared field; an unknown keyword raises `TypeError`. -/
def dataclassAccepts (fields kwargs : List String) : Bool :=
  kwargs.all (fun k => fields.contains k)

/-- C2: the dataclasses persisted by `config.py` do not declare the
fields `run_calibration` constructs them with — `CalibrationPoint` lacks
`intensity`/`area` and `CalibrationProfile` lacks the learned
intensity/area ranges and `camera_orientation` — so the first
`CalibrationPoint(..., intensity=..., area=...)` call of a successful
run raises `TypeError` and no profile with the claimed contents can be
returned or persisted. -/
theorem calibration_profile_fields_missing :
    dataclassAccepts calibrationPointFields runCalibrationPointKwargs = false ∧
    dataclassAccepts calibrationProfileFields runCalibrationProfileKwargs = false ∧
    calibrationPointFields.contains "intensity" = false ∧
    calibrationPointFields.contains "area" = false ∧
    calibrationProfileFields.contains "learned_intensity_min" = false ∧
    calibrationProfileFields.contains "learned_intensity_max" = false ∧
    calibrationProfileFields.contains "learned_area_min" = false ∧
    calibrationProfileFields.contains "learned_area_max" = false ∧
    calibrationProfileFields.contains "camera_orientation" = false := by
  decide

/-! ### Calibration run control flow (`run_calibration` and the
`RefurboardApp._calibrate` boundary, claim C5) -/

/-- Dwell-averaged data `_collect_point` returns for one target. -/
structure CollectedPointData where
  cameraPx : ℚ × ℚ
  intensity : ℚ
  area : ℚ
deriving DecidableEq, Repr

/-- Outcome of one target's sampling loop: either a cooperative
cancellation is observed (abort event set at the iteration start, or the
overlay reported cancellation inside `_collect_point`, which then
returns `None` and `run_calibration` raises `CalibrationError`), or a
dwell-locked point is collected. -/
inductive PointOutcome where
  | cancel
  | collected (d : CollectedPointData)
deriving DecidableEq, Repr

/-- Inputs determining one calibration run's control flow: whether the
abort event is already set when the overlay opens, and the outcome of
each target's collection (indexed by the source's `enumerate(...,
start=1)` counter). -/
structure CalInput where
  abortAtStart : Bool
  outcomes : ℕ → PointOutcome

/-- A calibration point as `run_calibration` constructs it (name,
camera pixel, local screen target, normalized target, dwell-averaged
intensity and area).  The `TypeError` this construction actually raises
against `config.CalibrationPoint`'s field list is treated separately
(claim C2); the cancellation-protocol claims below are independent of
it because they only concern paths that never reach profile
persistence. -/
structure CalPoint where
  name : String
  cameraPx : ℚ × ℚ
  screenPx : ℤ × ℤ
  normalizedScreen : ℚ × ℚ
  intensity : ℚ
  area : ℚ
deriving DecidableEq, Repr

/-- The constant `TARGET_OFFSET`. -/
def targetOffset : ℚ := 0.035

/-- The constant `TARGET_ORDER`: four corner targets, visited in order. -/
def targetOrder : List (String × (ℚ × ℚ)) :=
  [("top_left", (targetOffset, targetOffset)),
   ("top_right", (1 - targetOffset, targetOffset)),
   ("bottom_right", (1 - targetOffset, 1 - targetOffset)),
   ("bottom_left", (targetOffset, 1 - targetOffset))]

/-- Resolved screen bounds for the overlay. -/
structure ScreenBounds where
  width : ℤ
  height : ℤ
deriving DecidableEq, Repr

/-- The per-target loop of `run_calibration`: walks `TARGET_ORDER`,
checking for cancellation (`PointOutcome.cancel`) and otherwise
recording the collected point with its local screen target
`(int(nx*width), int(ny*height))`.  Raising `CalibrationError` is
embedded as `Except.error ()`. -/
def collectLoop (inp : CalInput) (bounds : ScreenBounds) :
    ℕ → List (String × (ℚ × ℚ)) → List CalPoint →
    Except Unit (List CalPoint)
  | _, [], acc => .ok acc
  | i, (nm, nrm) :: rest, acc =>
    match inp.outcomes i with
    | .cancel => .error ()
    | .collected d =>
      let tgt := (pyInt (nrm.1 * (bounds.width : ℚ)),
                  pyInt (nrm.2 * (bounds.height : ℚ)))
      collectLoop inp bounds (i + 1) rest
        (acc ++ [⟨nm, d.cameraPx, tgt, nrm, d.intensity, d.area⟩])

/-- Control-flow model of `run_calibration` around the overlay and the
configuration.  `mkProfile` abstracts the post-collection finalization
(homography fit, reprojection error, learned thresholds, orientation —
`cv2` and float-σ computations whose values the cancellation claims do
not depend on; every theorem below holds for every `mkProfile`).
Returns the raised/returned result, the stored configuration
(`config.calibration`, which `save_config` persists) after the run, and
whether the overlay was closed (the `try/finally` plus the two explicit
`overlay.close()` calls). -/
def runCalibrationModel {α : Type} (mkProfile : List CalPoint → α)
    (cfg : Option α) (inp : CalInput) (bounds : ScreenBounds) :
    Except Unit α × Option α × Bool :=
  -- overlay = CalibrationOverlay(bounds) opens here
  if inp.abortAtStart then
    -- overlay.close(); raise CalibrationError
    (.error (), cfg, true)
  else
    match collectLoop inp bounds 1 targetOrder [] with
    | .error _ => (.error (), cfg, true)   -- finally: overlay.close(); raise
    | .ok pts =>
      -- finally: overlay.close(); then build and persist the profile
      let profile := mkProfile pts
      (.ok profile, some profile, true)

/-- The boundary `RefurboardApp._calibrate`: `except CalibrationError:
pass` — `true` iff the run raised the distinguished cancelled condition
and it was caught there (nothing propagates). -/
def calibrateCaught {α : Type} (mkProfile : List CalPoint → α)
    (cfg : Option α) (inp : CalInput) (bounds : ScreenBounds) : Bool :=
  match (runCalibrationModel mkProfile cfg inp bounds).1 with
  | .error _ => true
  | .ok _ => false

/-- Helper: a cancellation observed at any remaining target makes the
collection loop raise. -/
theorem collectLoop_cancel (inp : CalInput) (bounds : ScreenBounds) :
    ∀ (targets : List (String × (ℚ × ℚ))) (start : ℕ) (acc : List CalPoint),
    (∃ j, j < targets.length ∧ inp.outcomes (start + j) = PointOutcome.cancel) →
    collectLoop inp bounds start targets acc = .error () := by
  intro targets
  induction targets with
  | nil =>
    intro start acc ⟨j, hj, _⟩
    simp at hj
  | cons t rest ih =>
    intro start acc ⟨j, hj, hc⟩
    rcases t with ⟨nm, nrm⟩
    cases j with
    | zero =>
      simp only [Nat.add_zero] at hc
      simp [collectLoop, hc]
    | succ j =>
      rcases ho : inp.outcomes start with _ | d
      · simp [collectLoop, ho]
      · simp only [collectLoop, ho]
        exact ih (start + 1) _ ⟨j, by simpa using hj, by
          simpa [Nat.add_assoc, Nat.add_comm 1 j] using hc⟩

/-- C5: if a calibration run is cancelled — the abort flag is set at the
start, or a cancellation is observed at any of the four targets — the
distinguished cancelled condition is raised (`Except.error`) and caught
at the `_calibrate` boundary, every partially collected point is
discarded (the result carries none), the persisted calibration profile
(and hence the homography rebuilt from it) is unchanged, and the
overlay is torn down; moreover the overlay is torn down on every exit
path of every run, cancelled or not. -/
theorem calibration_cancel_protocol {α : Type} (mkProfile : List CalPoint → α)
    (cfg : Option α) (inp : CalInput) (bounds : ScreenBounds)
    (hcancel : inp.abortAtStart = true ∨
      ∃ j, j < 4 ∧ inp.outcomes (1 + j) = PointOutcome.cancel) :
    (runCalibrationModel mkProfile cfg inp bounds).1 = .error () ∧
    (runCalibrationModel mkProfile cfg inp bounds).2.1 = cfg ∧
    calibrateCaught mkProfile cfg inp bounds = true ∧
    (∀ (cfg2 : Option α) (inp2 : CalInput),
      (runCalibrationModel mkProfile cfg2 inp2 bounds).2.2 = true) := by
  have hclosed : ∀ (cfg2 : Option α) (inp2 : CalInput),
      (runCalibrationModel mkProfile cfg2 inp2 bounds).2.2 = true := by
    intro cfg2 inp2
    unfold runCalibrationModel
    split
    · rfl
    · rcases h : collectLoop inp2 bounds 1 targetOrder [] with _ | pts <;> simp
  rcases hcancel with habort | ⟨j, hj, hc⟩
  · refine ⟨?_, ?_, ?_, hclosed⟩ <;>
      simp [runCalibrationModel, calibrateCaught, habort]
  · have herr : collectLoop inp bounds 1 targetOrder [] = .error () :=
      collectLoop_cancel inp bounds targetOrder 1 []
        ⟨j, by simpa [targetOrder] using hj, hc⟩
    refine ⟨?_, ?_, ?_, hclosed⟩ <;>
      cases habort : inp.abortAtStart <;>
        simp [runCalibrationModel, calibrateCaught, habort, herr]

/-- Witness for C5: a run whose second target observes the cancellation
(one point already collected and then discarded), with a nonempty prior
profile left in force. -/
theorem calibration_cancel_protocol_witness :
    (∃ j, j < 4 ∧
      (fun i => if i = 2 then PointOutcome.cancel
                else PointOutcome.collected ⟨(5, 5), 50, 20⟩) (1 + j) =
        PointOutcome.cancel) ∧
    ((runCalibrationModel (fun pts => pts) (some [])
        ⟨false, fun i => if i = 2 then PointOutcome.cancel
                         else PointOutcome.collected ⟨(5, 5), 50, 20⟩⟩
        ⟨1920, 1080⟩).1 = .error () ∧
     (runCalibrationModel (fun pts => pts) (some [])
        ⟨false, fun i => if i = 2 then PointOutcome.cancel
                         else PointOutcome.collected ⟨(5, 5), 50, 20⟩⟩
        ⟨1920, 1080⟩).2.1 = some [] ∧
     calibrateCaught (fun pts => pts) (some [])
        ⟨false, fun i => if i = 2 then PointOutcome.cancel
                         else PointOutcome.collected ⟨(5, 5), 50, 20⟩⟩
        ⟨1920, 1080⟩ = true ∧
     (∀ (cfg2 : Option (List CalPoint)) (inp2 : CalInput),
       (runCalibrationModel (fun pts => pts) cfg2 inp2 ⟨1920, 1080⟩).2.2 =
         true)) :=
  ⟨⟨1, by norm_num, by norm_num⟩,
   calibration_cancel_protocol (fun pts => pts) (some [])
     ⟨false, fun i => if i = 2 then PointOutcome.cancel
                      else PointOutcome.collected ⟨(5, 5), 50, 20⟩⟩
     ⟨1920, 1080⟩
     (Or.inr ⟨1, by norm_num, by norm_num⟩)⟩

/-! ### Persistence tracker (`detection.BlobTracker`, claim C8) -/

/-- One track: `(last_position, consecutive_count, last_blob)`. -/
structure Track where
  pos : ℚ × ℚ
  count : ℕ
  blob : Blob
deriving DecidableEq, Repr

/-- State of `detection.BlobTracker`: configuration (the radius is
stored already squared, as `association_radius ** 2` is in the source),
the insertion-ordered track table, and the fresh-id counter. -/
structure TrackerState where
  persistenceFrames : ℕ
  assocRadiusSq : ℚ
  tracks : List (ℕ × Track)
  nextId : ℕ
deriving DecidableEq, Repr

/-- Freshly constructed tracker. -/
def TrackerState.init (persistenceFrames : ℕ) (assocRadiusSq : ℚ) :
    TrackerState :=
  ⟨persistenceFrames, assocRadiusSq, [], 0⟩

/-- The inner scan of `BlobTracker.update`: over the unmatched blobs it
keeps the first blob strictly minimizing the squared distance to the
track's last position among those inside the association radius
(`dist_sq < radius_sq and dist_sq < best_dist_sq`). -/
def bestScan (lastPos : ℚ × ℚ) (radiusSq : ℚ) :
    List Blob → Option (ℚ × Blob) → Option (ℚ × Blob)
  | [], acc => acc
  | b :: rest, acc =>
    let d := distSq b.center lastPos
    let better := match acc with
      | none => decide (d < radiusSq)
      | some (bd, _) => decide (d < radiusSq) && decide (d < bd)
    bestScan lastPos radiusSq rest (if better then some (d, b) else acc)

/-- The matching phase of `BlobTracker.update`: tracks are visited in
insertion order; a matched track's blob is removed from the unmatched
pool (`unmatched_blobs.remove(best_match)` removes the first equal
element, which is the chosen one since ties keep the earlier blob) and
the track is kept with its position/blob replaced and its count
incremented.  Returns the matched tracks (in order) and the remaining
unmatched blobs. -/
def matchTracks (radiusSq : ℚ) :
    List (ℕ × Track) → List Blob → List (ℕ × Track) × List Blob
  | [], bs => ([], bs)
  | (id, tr) :: rest, bs =>
    match bestScan tr.pos radiusSq bs none with
    | none => matchTracks radiusSq rest bs
    | some (_, b) =>
      let r := matchTracks radiusSq rest (bs.erase b)
      ((id, ⟨b.center, tr.count + 1, b⟩) :: r.1, r.2)

/-- New tracks created for the unmatched blobs, with consecutive ids
starting at the tracker's `_next_id` and count 1. -/
def newTracksFor (nextId : ℕ) (rem : List Blob) : List (ℕ × Track) :=
  ((List.range rem.length).zip rem).map
    (fun p => (nextId + p.1, (⟨p.2.center, 1, p.2⟩ : Track)))

/-- Stable insertion into a descending-by-score list (equal scores keep
the original order, matching Python's stable `sort(..., reverse=True)`). -/
def insertDesc (w : Blob → ℚ) (b : Blob) : List Blob → List Blob
  | [] => [b]
  | c :: cs => if w c ≤ w b then b :: c :: cs else c :: insertDesc w b cs

/-- Stable descending sort by a score.  A stable sort's output is
unique, so this equals the source's Timsort result. -/
def sortDesc (w : Blob → ℚ) : List Blob → List Blob
  | [] => []
  | b :: bs => insertDesc w b (sortDesc w bs)

/-- The method `BlobTracker.update(blobs)`: an empty frame clears all
tracks; otherwise tracks are matched (unmatched tracks dropped), new
tracks are created for unmatched blobs, and the confirmed output is the
blobs of tracks with `count >= persistence_frames`, sorted descending by
the weighted score. -/
def TrackerState.update (st : TrackerState) (blobs : List Blob) :
    TrackerState × List Blob :=
  match blobs with
  | [] => ({ st with tracks := [] }, [])
  | _ =>
    let m := matchTracks st.assocRadiusSq st.tracks blobs
    let tracks2 := m.1 ++ newTracksFor st.nextId m.2
    let st2 := { st with tracks := tracks2, nextId := st.nextId + m.2.length }
    let persistent := ((tracks2.map Prod.snd).filter
      (fun tr => decide (st.persistenceFrames ≤ tr.count))).map Track.blob
    (st2, sortDesc weightedScore persistent)

/-- Folding `BlobTracker.update` over a sequence of frames (keeping only
the state). -/
def runTracker (st0 : TrackerState) (frames : List (List Blob)) :
    TrackerState :=
  frames.foldl (fun st f => (st.update f).1) st0

/-- Invariant of every reachable tracker state: track ids are distinct
and below the fresh-id counter. -/
def TrackerInv (st : TrackerState) : Prop :=
  (st.tracks.map Prod.fst).Nodup ∧ ∀ p ∈ st.tracks, p.1 < st.nextId

/-! #### Step lemmas for the tracker -/

theorem matchTracks_ids_sublist (R : ℚ) (tracks : List (ℕ × Track))
    (bs : List Blob) :
    ((matchTracks R tracks bs).1.map Prod.fst).Sublist
      (tracks.map Prod.fst) := by
  induction tracks generalizing bs with
  | nil => simp [matchTracks]
  | cons p rest ih =>
    rcases p with ⟨id, tr⟩
    rcases hb : bestScan tr.pos R bs none with _ | ⟨d, b⟩
    · simp only [matchTracks, hb]
      exact (ih bs).cons _
    · simp only [matchTracks, hb, List.map_cons]
      exact (ih (bs.erase b)).cons₂ _

theorem matchTracks_mem (R : ℚ) (tracks : List (ℕ × Track))
    (bs : List Blob) :
    ∀ p ∈ (matchTracks R tracks bs).1,
      ∃ tr, (p.1, tr) ∈ tracks ∧ p.2.count = tr.count + 1 := by
  induction tracks generalizing bs with
  | nil => simp [matchTracks]
  | cons q rest ih =>
    rcases q with ⟨id, tr⟩
    intro p hp
    rcases hb : bestScan tr.pos R bs none with _ | ⟨d, b⟩
    · rw [matchTracks, hb] at hp
      obtain ⟨tr2, h1, h2⟩ := ih bs p hp
      exact ⟨tr2, List.mem_cons_of_mem _ h1, h2⟩
    · rw [matchTracks, hb] at hp
      rcases List.mem_cons.mp hp with h | h
      · subst h
        exact ⟨tr, List.mem_cons_self _ _, rfl⟩
      · obtain ⟨tr2, h1, h2⟩ := ih (bs.erase b) p h
        exact ⟨tr2, List.mem_cons_of_mem _ h1, h2⟩

theorem newTracksFor_mem (n : ℕ) (rem : List Blob) :
    ∀ p ∈ newTracksFor n rem,
      n ≤ p.1 ∧ p.1 < n + rem.length ∧ p.2.count = 1 := by
  intro p hp
  obtain ⟨⟨i, b⟩, hmem, rfl⟩ := List.mem_map.mp hp
  have hi : i ∈ List.range rem.length := (List.of_mem_zip hmem).1
  have hilt := List.mem_range.mp hi
  exact ⟨Nat.le_add_right _ _, by omega, rfl⟩

theorem newTracksFor_ids (n : ℕ) (rem : List Blob) :
    (newTracksFor n rem).map Prod.fst =
      (List.range rem.length).map (fun i => n + i) := by
  unfold newTracksFor
  rw [List.map_map]
  have hz : ((List.range rem.length).zip rem).map
      (Prod.fst ∘ fun p => (n + p.1, (⟨p.2.center, 1, p.2⟩ : Track))) =
      ((List.range rem.length).zip rem).map (fun p => n + p.1) := rfl
  rw [hz]
  have h2 : ((List.range rem.length).zip rem).map (fun p => n + p.1) =
      (((List.range rem.length).zip rem).map Prod.fst).map
        (fun i => n + i) := by
    rw [List.map_map]; rfl
  rw [h2, List.map_fst_zip]
  simp

theorem newTracksFor_ids_nodup (n : ℕ) (rem : List Blob) :
    ((newTracksFor n rem).map Prod.fst).Nodup := by
  rw [newTracksFor_ids]
  exact (List.nodup_range _).map (fun a b h => by omega)

theorem update_params (st : TrackerState) (bs : List Blob) :
    (st.update bs).1.persistenceFrames = st.persistenceFrames ∧
    (st.update bs).1.assocRadiusSq = st.assocRadiusSq := by
  cases bs <;> exact ⟨rfl, rfl⟩

theorem update_nextId_le (st : TrackerState) (bs : List Blob) :
    st.nextId ≤ (st.update bs).1.nextId := by
  cases bs with
  | nil => exact le_refl _
  | cons b l => exact Nat.le_add_right _ _

theorem update_track_mem (st : TrackerState) (bs : List Blob) :
    ∀ p ∈ (st.update bs).1.tracks,
      (∃ tr, (p.1, tr) ∈ st.tracks ∧ p.2.count = tr.count + 1) ∨
      (st.nextId ≤ p.1 ∧ p.2.count = 1) := by
  cases bs with
  | nil => simp [TrackerState.update]
  | cons b l =>
    intro p hp
    simp only [TrackerState.update] at hp
    rcases List.mem_append.mp hp with h | h
    · exact Or.inl (matchTracks_mem _ _ _ p h)
    · obtain ⟨h1, _, h3⟩ := newTracksFor_mem _ _ p h
      exact Or.inr ⟨h1, h3⟩

theorem inv_update (st : TrackerState) (bs : List Blob)
    (h : TrackerInv st) : TrackerInv (st.update bs).1 := by
  cases bs with
  | nil => exact ⟨by simp [TrackerState.update], by simp [TrackerState.update]⟩
  | cons b l =>
    obtain ⟨hnd, hlt⟩ := h
    constructor
    · simp only [TrackerState.update, List.map_append]
      refine List.Nodup.append ?_ (newTracksFor_ids_nodup _ _) ?_
      · exact ((matchTracks_ids_sublist _ _ _).nodup hnd)
      · intro a ha hb
        obtain ⟨p, hp, rfl⟩ := List.mem_map.mp ha
        obtain ⟨tr2, hmem2, _⟩ := matchTracks_mem _ _ _ p hp
        have h1 : p.1 < st.nextId := hlt (p.1, tr2) hmem2
        obtain ⟨q, hq, hqeq⟩ := List.mem_map.mp hb
        obtain ⟨h2, _, _⟩ := newTracksFor_mem _ _ q hq
        omega
    · intro p hp
      simp only [TrackerState.update] at hp ⊢
      rcases List.mem_append.mp hp with hmm | hmm
      · obtain ⟨tr2, hmem2, _⟩ := matchTracks_mem _ _ _ p hmm
        have := hlt (p.1, tr2) hmem2
        omega
      · obtain ⟨_, h2, _⟩ := newTracksFor_mem _ _ p hmm
        exact h2

theorem update_unmatched_destroyed (st : TrackerState) (bs : List Blob)
    (hinv : TrackerInv st) :
    ∀ id, id ∈ st.tracks.map Prod.fst →
      id ∉ (matchTracks st.assocRadiusSq st.tracks bs).1.map Prod.fst →
      id ∉ (st.update bs).1.tracks.map Prod.fst := by
  cases bs with
  | nil => simp [TrackerState.update]
  | cons b l =>
    intro id hold hnm hmem
    simp only [TrackerState.update, List.map_append, List.mem_append] at hmem
    rcases hmem with hmm | hmm
    · exact hnm hmm
    · obtain ⟨p, hp, rfl⟩ := List.mem_map.mp hmm
      obtain ⟨h1, _, _⟩ := newTracksFor_mem _ _ p hp
      obtain ⟨q, hq, hqe⟩ := List.mem_map.mp hold
      have := hinv.2 q hq
      omega

theorem mem_insertDesc (w : Blob → ℚ) (b a : Blob) (l : List Blob) :
    a ∈ insertDesc w b l ↔ a = b ∨ a ∈ l := by
  induction l with
  | nil => simp [insertDesc]
  | cons c cs ih =>
    simp only [insertDesc]
    split
    · simp
    · rw [List.mem_cons, ih, List.mem_cons]
      tauto

theorem mem_sortDesc (w : Blob → ℚ) (a : Blob) (l : List Blob) :
    a ∈ sortDesc w l ↔ a ∈ l := by
  induction l with
  | nil => simp [sortDesc]
  | cons b bs ih =>
    rw [sortDesc, mem_insertDesc, ih, List.mem_cons]

theorem update_output_mem (st : TrackerState) (bs : List Blob) (b : Blob) :
    b ∈ (st.update bs).2 ↔
      ∃ p ∈ (st.update bs).1.tracks,
        p.2.blob = b ∧ st.persistenceFrames ≤ p.2.count := by
  cases bs with
  | nil => simp [TrackerState.update]
  | cons c l =>
    simp only [TrackerState.update, mem_sortDesc, List.mem_map,
      List.mem_filter, decide_eq_true_eq]
    constructor
    · rintro ⟨tr, ⟨⟨p, hp, rfl⟩, hcnt⟩, rfl⟩
      exact ⟨p, hp, rfl, hcnt⟩
    · rintro ⟨p, hp, rfl, hcnt⟩
      exact ⟨p.2, ⟨⟨p, hp, rfl⟩, hcnt⟩, rfl⟩

/-! #### Run-level lemmas for the tracker -/

theorem runTracker_append (st0 : TrackerState) (l1 l2 : List (List Blob)) :
    runTracker st0 (l1 ++ l2) = runTracker (runTracker st0 l1) l2 := by
  simp [runTracker, List.foldl_append]

theorem runTracker_nextId_le (st0 : TrackerState)
    (frames : List (List Blob)) :
    st0.nextId ≤ (runTracker st0 frames).nextId := by
  induction frames generalizing st0 with
  | nil => exact le_refl _
  | cons f fs ih =>
    have hstep : runTracker st0 (f :: fs) = runTracker (st0.update f).1 fs := rfl
    rw [hstep]
    exact le_trans (update_nextId_le st0 f) (ih _)

theorem runTracker_params (st0 : TrackerState) (frames : List (List Blob)) :
    (runTracker st0 frames).persistenceFrames = st0.persistenceFrames ∧
    (runTracker st0 frames).assocRadiusSq = st0.assocRadiusSq := by
  induction frames generalizing st0 with
  | nil => exact ⟨rfl, rfl⟩
  | cons f fs ih =>
    have hstep : runTracker st0 (f :: fs) = runTracker (st0.update f).1 fs := rfl
    rw [hstep]
    obtain ⟨hp, hr⟩ := ih (st0.update f).1
    obtain ⟨hp2, hr2⟩ := update_params st0 f
    exact ⟨hp.trans hp2, hr.trans hr2⟩

theorem inv_init (P : ℕ) (R : ℚ) : TrackerInv (TrackerState.init P R) :=
  ⟨List.nodup_nil, by simp [TrackerState.init]⟩

theorem inv_run (st0 : TrackerState) (frames : List (List Blob))
    (h : TrackerInv st0) : TrackerInv (runTracker st0 frames) := by
  induction frames generalizing st0 with
  | nil => exact h
  | cons f fs ih =>
    have hstep : runTracker st0 (f :: fs) = runTracker (st0.update f).1 fs := rfl
    rw [hstep]
    exact ih _ (inv_update st0 f h)

/-- Consecutive-hit correctness: a track live after a run of frames has
a count between 1 and the number of frames, and the prefixes of the run
in whose state the track id is live are exactly the last `count` ones —
i.e. the count equals the number of consecutive trailing frames through
which the track has been matched (or created). -/
theorem runTracker_count (P : ℕ) (R : ℚ) (frames : List (List Blob)) :
    ∀ id tr, (id, tr) ∈ (runTracker (TrackerState.init P R) frames).tracks →
      1 ≤ tr.count ∧ tr.count ≤ frames.length ∧
      ∀ j, j ≤ frames.length →
        ((∃ tr2, (id, tr2) ∈
            (runTracker (TrackerState.init P R) (frames.take j)).tracks) ↔
          frames.length - tr.count < j) := by
  induction frames using List.reverseRecOn with
  | nil =>
    intro id tr h
    simp [runTracker, TrackerState.init] at h
  | append_singleton fr f ih =>
    intro id tr hmem
    have hmem' : (id, tr) ∈
        ((runTracker (TrackerState.init P R) fr).update f).1.tracks := by
      rw [runTracker_append] at hmem
      exact hmem
    rcases update_track_mem _ f (id, tr) hmem' with
      ⟨tr0, hmem0, hcount⟩ | ⟨hge, hcount⟩
    · -- the track survived: it was matched and its count incremented
      replace hcount : tr.count = tr0.count + 1 := hcount
      obtain ⟨h1, h2, h3⟩ := ih id tr0 hmem0
      refine ⟨by omega, by simp only [List.length_append,
        List.length_singleton]; omega, ?_⟩
      intro j hj
      simp only [List.length_append, List.length_singleton] at hj ⊢
      by_cases hjn : j ≤ fr.length
      · rw [List.take_append_of_le_length hjn,
          show fr.length + 1 - tr.count = fr.length - tr0.count from by omega]
        exact h3 j hjn
      · have hj1 : j = fr.length + 1 := by omega
        subst hj1
        have hfull : (fr ++ [f]).take (fr.length + 1) = fr ++ [f] := by
          have hlen : fr.length + 1 = (fr ++ [f]).length := by simp
          rw [hlen, List.take_length]
        rw [hfull]
        constructor
        · intro _
          omega
        · intro _
          exact ⟨tr, hmem⟩
    · -- a newly created track: count 1, id fresh, never live before
      replace hcount : tr.count = 1 := hcount
      replace hge : (runTracker (TrackerState.init P R) fr).nextId ≤ id := hge
      refine ⟨by omega, by simp only [List.length_append,
        List.length_singleton]; omega, ?_⟩
      intro j hj
      simp only [List.length_append, List.length_singleton] at hj ⊢
      by_cases hjn : j ≤ fr.length
      · rw [List.take_append_of_le_length hjn]
        constructor
        · rintro ⟨tr2, hmem2⟩
          exfalso
          have hinv : TrackerInv
              (runTracker (TrackerState.init P R) (fr.take j)) :=
            inv_run _ _ (inv_init P R)
          have hlt : id <
              (runTracker (TrackerState.init P R) (fr.take j)).nextId :=
            hinv.2 (id, tr2) hmem2
          have hle : (runTracker (TrackerState.init P R) (fr.take j)).nextId ≤
              (runTracker (TrackerState.init P R) fr).nextId := by
            have hsplit : fr = fr.take j ++ fr.drop j :=
              (List.take_append_drop j fr).symm
            calc (runTracker (TrackerState.init P R) (fr.take j)).nextId
                ≤ (runTracker
                    (runTracker (TrackerState.init P R) (fr.take j))
                    (fr.drop j)).nextId := runTracker_nextId_le _ _
              _ = (runTracker (TrackerState.init P R) fr).nextId := by
                  rw [← runTracker_append, ← hsplit]
          omega
        · intro hlt2
          exact absurd hlt2 (by omega)
      · have hj1 : j = fr.length + 1 := by omega
        subst hj1
        have hfull : (fr ++ [f]).take (fr.length + 1) = fr ++ [f] := by
          have hlen : fr.length + 1 = (fr ++ [f]).length := by simp
          rw [hlen, List.take_length]
        rw [hfull]
        constructor
        · intro _
          omega
        · intro _
          exact ⟨tr, hmem⟩

/-- C8: for every sequence of input frames followed by one more frame:
(1) every blob in the confirmed output belongs to a live track whose
consecutive-hit count has reached `persistence_frames` (with (3), that
track has been matched in that many consecutive trailing frames — so a
blob matched in fewer consecutive frames never appears); (2) every live
track at or past the threshold has its blob in the confirmed output;
(3) every live track's count equals the number of consecutive trailing
frames through which it has been live (matched or created), bounded by
the run length; (4) any track not matched in the new frame is
destroyed. -/
theorem blobTracker_persistence (P : ℕ) (R : ℚ)
    (frames : List (List Blob)) (bs : List Blob) :
    (∀ b ∈ ((runTracker (TrackerState.init P R) frames).update bs).2,
      ∃ id tr,
        (id, tr) ∈ ((runTracker (TrackerState.init P R) frames).update bs).1.tracks ∧
        tr.blob = b ∧ P ≤ tr.count) ∧
    (∀ id tr,
      (id, tr) ∈ ((runTracker (TrackerState.init P R) frames).update bs).1.tracks →
      P ≤ tr.count →
      tr.blob ∈ ((runTracker (TrackerState.init P R) frames).update bs).2) ∧
    (∀ id tr, (id, tr) ∈ (runTracker (TrackerState.init P R) frames).tracks →
      1 ≤ tr.count ∧ tr.count ≤ frames.length ∧
      ∀ j, j ≤ frames.length →
        ((∃ tr2, (id, tr2) ∈
            (runTracker (TrackerState.init P R) (frames.take j)).tracks) ↔
          frames.length - tr.count < j)) ∧
    (∀ id, id ∈ (runTracker (TrackerState.init P R) frames).tracks.map Prod.fst →
      id ∉ (matchTracks R
        (runTracker (TrackerState.init P R) frames).tracks bs).1.map Prod.fst →
      id ∉ ((runTracker (TrackerState.init P R) frames).update bs).1.tracks.map
        Prod.fst) := by
  have hparams := runTracker_params (TrackerState.init P R) frames
  have hpers : (runTracker (TrackerState.init P R) frames).persistenceFrames
      = P := hparams.1
  have hrad : (runTracker (TrackerState.init P R) frames).assocRadiusSq
      = R := hparams.2
  refine ⟨?_, ?_, runTracker_count P R frames, ?_⟩
  · intro b hb
    rw [update_output_mem] at hb
    obtain ⟨p, hp, hblob, hcnt⟩ := hb
    exact ⟨p.1, p.2, hp, hblob, hpers ▸ hcnt⟩
  · intro id tr hmem hcnt
    rw [update_output_mem]
    exact ⟨(id, tr), hmem, rfl, hpers.symm ▸ hcnt⟩
  · intro id h1 h2
    refine update_unmatched_destroyed _ bs
      (inv_run _ frames (inv_init P R)) id h1 ?_
    rw [hrad]
    exact h2

/-- Witness for C8: a blob persisting through two frames with
`persistence_frames = 1` reaches count 2 and appears in the confirmed
output. -/
theorem blobTracker_persistence_witness :
    ((0 : ℕ), (⟨(192, 108), 2, demoBlob⟩ : Track)) ∈
      ((runTracker (TrackerState.init 1 100) [[demoBlob]]).update
        [demoBlob]).1.tracks ∧
    (1 : ℕ) ≤ 2 ∧
    demoBlob ∈ ((runTracker (TrackerState.init 1 100) [[demoBlob]]).update
      [demoBlob]).2 := by
  have hmem : ((0 : ℕ), (⟨(192, 108), 2, demoBlob⟩ : Track)) ∈
      ((runTracker (TrackerState.init 1 100) [[demoBlob]]).update
        [demoBlob]).1.tracks := by
    norm_num [runTracker, TrackerState.init, TrackerState.update,
      matchTracks, bestScan, newTracksFor, distSq, demoBlob]
  exact ⟨hmem, by norm_num,
    (blobTracker_persistence 1 100 [[demoBlob]] [demoBlob]).2.1 0
      ⟨(192, 108), 2, demoBlob⟩ hmem (by norm_num)⟩

end Refurboard
